import Mathlib

/-!
# Verification of the generation-job orchestrator

A shallow embedding, in Lean 4, of the core of the App-Builder backend:
the job store (`app/storage.py`), the entry-point resolver
(`app/services/execution.py`), the reviewer derivation
(`app/agents/reviewer_agent.py`), the iteration controller
(`app/agents/project_manager.py`), the phase pipeline
(`app/services/orchestrator.py`), the stuck-job monitor
(`app/services/job_timeout.py`) and the broadcast hub
(`app/routes/generate.py`), together with theorems settling the
behavioural claims about those components.

Conventions of the embedding:
* Python dictionaries keyed by strings become Lean structures; absent or
  `None`-valued entries become `Option` fields.
* `datetime` values are handled the way the code itself handles them: the
  store keeps `updated_at` as the ISO string exposed by `get_job`/`list_jobs`
  (`Option String`), and the monitor parses it with an abstract
  `parse : String → Option Int` standing for `datetime.fromisoformat`
  composed with the code's `Z`/timezone normalisation; theorems quantify
  over `parse`.
* Functions that can raise in Python return `Except`/`Option` values;
  a function with no reachable `raise` is total.
-/

namespace AppBuilder

/-! ## Job store (`app/storage.py`) -/

/-- A row of the `jobs` table, as exposed by `get_job`/`list_jobs`
(`app/models.py`, `app/storage.py`).  `created_at` is kept as an abstract
integer sort key (the code only ever orders by it); `updated_at` is kept as
the ISO-format string (or `NULL`) that `get_job` returns, because that is
the representation the stuck-job monitor consumes. -/
structure Job where
  id : String
  prompt : String := ""
  status : String := "pending"
  step : String := "initializing"
  download_url : Option String := none
  github_url : Option String := none
  deployment_url : Option String := none
  error : Option String := none
  user_id : Option String := none
  created_at : Int := 0
  updated_at : Option String := none
deriving Repr, DecidableEq

/-- The keyword arguments of `storage.update_job`: each field is `none` when
the caller did not pass it (Python `None`), mirroring
`update_job(job_id, status=None, step=None, ...)`. -/
structure JobUpdate where
  status : Option String := none
  step : Option String := none
  download_url : Option String := none
  github_url : Option String := none
  deployment_url : Option String := none
  error : Option String := none
deriving Repr, DecidableEq

/-- Errors of the storage layer named by the specification
(`DuplicateKey`, `NotFound`).  The embedding of `update_job` returns into
`Except StorageError` so that "fails with `NotFound`" is statable; the code
itself never raises either. -/
inductive StorageError where
  | notFound
  | duplicateKey
deriving Repr, DecidableEq

/-- The in-memory image of the `jobs` table: one row per job. -/
abbrev JobStore := List Job

/-- `SELECT ... WHERE Job.id == job_id` followed by `scalar_one_or_none()`:
the first row with the given id, if any.  (With unique primary keys the
"first" row is the only one.) -/
def findJob (store : JobStore) (job_id : String) : Option Job :=
  store.find? (fun j => j.id == job_id)

/-- The field-merge done by the body of `storage.update_job`: every argument
that `is not None` overwrites the stored field, everything else is kept, and
`updated_at` is set to `datetime.utcnow()` (the caller-supplied `nowStr`). -/
def applyFields (j : Job) (u : JobUpdate) (nowStr : String) : Job :=
  { j with
    status := u.status.getD j.status
    step := u.step.getD j.step
    download_url := u.download_url.or j.download_url
    github_url := u.github_url.or j.github_url
    deployment_url := u.deployment_url.or j.deployment_url
    error := u.error.or j.error
    updated_at := some nowStr }

/-- Replace the first row with the given id by `f` of it; if no row matches,
the store is unchanged (which is exactly the early `return` of
`storage.update_job` on a missing id). -/
def updateFirst (job_id : String) (f : Job → Job) : JobStore → JobStore
  | [] => []
  | j :: js => if j.id == job_id then f j :: js else j :: updateFirst job_id f js

/-- The state transformation of `storage.update_job`. -/
def update_job_store (store : JobStore) (job_id : String) (u : JobUpdate)
    (nowStr : String) : JobStore :=
  updateFirst job_id (fun j => applyFields j u nowStr) store

/-- `storage.update_job`, with an explicit error channel for the exceptions a
Python callee could raise.  The source returns normally on every input — on a
missing id it silently `return`s without touching the store — so the
embedding never produces `Except.error`. -/
def update_job (store : JobStore) (job_id : String) (u : JobUpdate)
    (nowStr : String) : Except StorageError JobStore :=
  Except.ok (update_job_store store job_id u nowStr)

/-! ## Entry-point resolver (`app/services/execution.py`) -/

/-- File paths (Python `str`) are modelled as their character sequences. -/
abbrev PathStr := List Char

/-- `ENTRYPOINT_CANDIDATES = ["app.py", "main.py", "index.js", "index.html"]`
(`execution.py` line 13). -/
def ENTRYPOINT_CANDIDATES : List PathStr :=
  ["app.py".data, "main.py".data, "index.js".data, "index.html".data]

/-- `file_path.replace("\\", "/")`: the pattern is a single backslash
character, so the replacement is a character-wise map. -/
def normalizeSlashes (p : PathStr) : PathStr :=
  p.map (fun c => if c = '\\' then '/' else c)

/-- Python substring test `needle in hay`. -/
def listContainsSub (needle : PathStr) : PathStr → Bool
  | [] => needle.isEmpty
  | c :: t => needle.isPrefixOf (c :: t) || listContainsSub needle t

/-- The per-candidate match performed inside `find_entrypoint_in_file_paths`:
with `require_root` it is `file_path == candidate or
file_path.replace("\\", "/") == candidate`; otherwise it is
`file_path.endswith(candidate) or "/" + candidate in file_path or
"\\" + candidate in file_path`. -/
def entryMatch (require_root : Bool) (file_path candidate : PathStr) : Bool :=
  if require_root then
    file_path == candidate || normalizeSlashes file_path == candidate
  else
    candidate.isSuffixOf file_path
      || listContainsSub ('/' :: candidate) file_path
      || listContainsSub ('\\' :: candidate) file_path

/-- The nested `for candidate in ENTRYPOINT_CANDIDATES: for file_path in
file_paths: ...` loop: first matching path of the first candidate that has
one. -/
def findForCandidates (file_paths : List PathStr) (require_root : Bool) :
    List PathStr → Option PathStr
  | [] => none
  | c :: cs =>
    match file_paths.find? (fun p => entryMatch require_root p c) with
    | some p => some p
    | none => findForCandidates file_paths require_root cs

/-- `execution.find_entrypoint_in_file_paths`. -/
def find_entrypoint_in_file_paths (file_paths : List PathStr)
    (require_root : Bool) : Option PathStr :=
  findForCandidates file_paths require_root ENTRYPOINT_CANDIDATES

/-! ## Reviewer (`app/agents/reviewer_agent.py`) -/

/-- The fields of the JSON object parsed from the model response that
`review_against_spec` reads, with the defaults of the corresponding
`result.get(...)` calls baked in.  JSON numbers are idealised as rationals;
`ready_for_user` is the truthiness of `result.get("ready_for_user", False)`. -/
structure ReviewJson where
  requirements_match : ℚ := 0
  functional_completeness : ℚ := 0
  ui_ux_reasonableness : ℚ := 0
  ready_for_user : Bool := false
  obvious_red_flags : List String := []
  runtime_risks : List String := []
  suggested_improvements : List String := []
  missing_core_features : List String := []
  notes : String := ""
deriving Repr, DecidableEq

/-- The dictionary returned by `ReviewerAgent.review_against_spec` /
`ReviewerAgent._fallback_review` (the keys the iteration controller and the
claims consume). -/
structure ReviewOutput where
  requirements_match : ℚ
  functional_completeness : ℚ
  ui_ux_reasonableness : ℚ
  obvious_red_flags : List String
  runtime_risks : List String
  suggested_improvements : List String
  ready_for_user : Bool
  notes : String
  missing_core_features : List String
  score : ℚ
  approved : Bool
  iteration : ℕ
  issues : List String
  feedback : String
deriving Repr, DecidableEq

/-- `(requirements_match * 0.4 + functional_completeness * 0.4 +
ui_ux_reasonableness * 0.2) * 10` (reviewer_agent.py lines 237-241). -/
def weightedScore (r : ReviewJson) : ℚ :=
  (r.requirements_match * (4 / 10) + r.functional_completeness * (4 / 10)
    + r.ui_ux_reasonableness * (2 / 10)) * 10

/-- `round(score, 1)`. -/
def round1 (x : ℚ) : ℚ := ((round (x * 10) : ℤ) : ℚ) / 10

/-- `ReviewerAgent._fallback_review`, parameterised by the instance field
`self.approval_threshold`. -/
def fallback_review (approval_threshold : ℚ) (iteration : ℕ) : ReviewOutput :=
  let score : ℚ := if iteration > 0 then 85 else 70
  { requirements_match := 8
    functional_completeness := 8
    ui_ux_reasonableness := 8
    obvious_red_flags := ["OpenAI not configured for review"]
    runtime_risks := []
    suggested_improvements := ["Configure OpenAI for detailed review"]
    ready_for_user := true
    notes := "Fallback review (iteration " ++ toString (iteration + 1) ++ ")"
    missing_core_features := []
    score := score
    approved := decide (approval_threshold ≤ score)
    iteration := iteration
    issues := ["OpenAI not configured"]
    feedback := "Fallback review" }

/-- `ReviewerAgent.review_against_spec`.  `response` is the parsed JSON of a
successful collaborator call; `none` covers the three code paths that end in
`_fallback_review`: no configured client, an API exception, and an
unparseable response (`json.JSONDecodeError`). -/
def review_against_spec (approval_threshold : ℚ) (iteration : ℕ)
    (response : Option ReviewJson) : ReviewOutput :=
  match response with
  | none => fallback_review approval_threshold iteration
  | some r =>
    let score := weightedScore r
    { requirements_match := r.requirements_match
      functional_completeness := r.functional_completeness
      ui_ux_reasonableness := r.ui_ux_reasonableness
      obvious_red_flags := r.obvious_red_flags
      runtime_risks := r.runtime_risks
      suggested_improvements := r.suggested_improvements
      ready_for_user := r.ready_for_user
      notes := r.notes
      missing_core_features := r.missing_core_features
      score := round1 score
      approved := decide (approval_threshold ≤ score) && r.ready_for_user
        && (r.obvious_red_flags.length == 0)
      iteration := iteration
      issues := r.obvious_red_flags ++ r.missing_core_features
      feedback := r.notes }

/-! ## Iteration controller (`ProjectManagerAgent.coordinate_generation`) -/

/-- The code-generation collaborator's result (the part the controller and
pipeline consume: the generated file set as path/content pairs). -/
structure CodeResult where
  files : List (String × String) := []
deriving Repr, DecidableEq

/-- One entry of `iteration_history` (1-based `iteration` key, as the source
appends `iteration + 1`). -/
structure IterationRecord where
  iteration : ℕ
  code_result : CodeResult
  review : ReviewOutput
deriving Repr, DecidableEq

/-- The dictionary returned by `coordinate_generation` (keys the orchestrator
reads; `errorTag` is the optional `"error"` key, present only in the
max-iterations result). -/
structure CoordResult where
  approved : Bool
  code : CodeResult
  review : ReviewOutput
  iterations : ℕ
  iteration_history : List IterationRecord
  errorTag : Option String
deriving Repr, DecidableEq

/-- The `for iteration in range(max_iterations)` loop of
`coordinate_generation`.  The collaborators are abstracted as oracles
indexed by the iteration counter: `gen i` is whatever
`generate_code_from_spec` returns on the call of iteration `i` (the
controller's control flow inspects only the review), and `rev i` is the
review returned for that iteration.  The `none` result models the `NameError`
the source hits when `max_iterations = 0` (the final `review` variable is
then unbound). -/
def coordinate_loop (max_iterations : ℕ) (gen : ℕ → CodeResult)
    (rev : ℕ → ReviewOutput) :
    ℕ → ℕ → List IterationRecord → Option CoordResult
  | 0, _, history =>
    match history.getLast? with
    | some best =>
      some { approved := false
             code := best.code_result
             review := best.review
             iterations := max_iterations
             iteration_history := history
             errorTag := some "Maximum iterations reached without approval" }
    | none => none
  | fuel + 1, i, history =>
    let code := gen i
    let review := rev i
    let history := history ++ [⟨i + 1, code, review⟩]
    if review.approved && review.ready_for_user then
      some { approved := true
             code := code
             review := review
             iterations := i + 1
             iteration_history := history
             errorTag := none }
    else
      coordinate_loop max_iterations gen rev fuel (i + 1) history

/-- `ProjectManagerAgent.coordinate_generation` (iteration part; spec
extraction and UX planning happen before the loop and are error-transparent,
see the pipeline model). -/
def coordinate_generation (max_iterations : ℕ) (gen : ℕ → CodeResult)
    (rev : ℕ → ReviewOutput) : Option CoordResult :=
  coordinate_loop max_iterations gen rev max_iterations 0 []

/-! ## Phase pipeline (`Orchestrator.generate_app`) -/

/-- The positional/keyword arguments of one `_update_job_status` call. -/
structure StatusUpdate where
  status : String
  step : String
  download_url : Option String := none
  github_url : Option String := none
  deployment_url : Option String := none
  error : Option String := none
deriving Repr, DecidableEq

/-- Python `x or y` on optional strings: `y` when `x` is `None` or empty. -/
def pyOr (x y : Option String) : Option String :=
  match x with
  | some s => if s = "" then y else some s
  | none => y

/-- `Orchestrator._update_job_status`: re-reads the current job to preserve
the URL fields (`download_url or current_job.get("download_url")` etc.), then
calls `storage.update_job`; `error` is passed through unmodified. -/
def update_job_status (store : JobStore) (job_id : String) (su : StatusUpdate)
    (nowStr : String) : JobStore :=
  let current := findJob store job_id
  update_job_store store job_id
    { status := some su.status
      step := some su.step
      download_url := pyOr su.download_url (current.bind Job.download_url)
      github_url := pyOr su.github_url (current.bind Job.github_url)
      deployment_url := pyOr su.deployment_url (current.bind Job.deployment_url)
      error := su.error }
    nowStr

/-- Outcome of the GitHub step: success with a repository URL, a returned
`success=False`, or a raised exception (both of the latter produce no status
update). -/
inductive GithubOutcome where
  | success (repo_url : String)
  | failure
  | raised
deriving Repr, DecidableEq

/-- The outcome of each collaborator interaction inside one
`generate_app` run: which phase (if any) raised, with `str(e)`, whether the
design result was approved, whether validation returned invalid (with its
error message), and how the GitHub step ended.  Later fields are irrelevant
when an earlier phase aborts the run. -/
structure RunOutcome where
  designRaises : Option String := none
  approved : Bool := true
  codingRaises : Option String := none
  validationRaises : Option String := none
  validationError : Option String := none
  packagingRaises : Option String := none
  github : GithubOutcome := GithubOutcome.failure
  completionRaises : Option String := none
deriving Repr, DecidableEq

/-- Python substring test on strings. -/
def containsSub (needle hay : String) : Bool :=
  listContainsSub needle.data hay.data

/-- The user-friendly rewrite of the validation failure message
(`orchestrator.py` lines 101-104). -/
def validationUserMessage (err : String) : String :=
  if containsSub "No entry point found" err then
    "The generated app is missing a runnable file (e.g. app.py, main.py, index.js, or index.html). Please try again or refine your prompt."
  else err

/-- The sequence of `_update_job_status` calls `Orchestrator.generate_app`
makes for a given run outcome, in order, following the source's
try/except-per-phase control flow.  A phase's exception is raised by the work
done after that phase's entry update. -/
def generate_app_updates (job_id : String) (o : RunOutcome) : List StatusUpdate :=
  let design : StatusUpdate := { status := "in_progress", step := "design" }
  match o.designRaises with
  | some msg =>
      [design,
       { status := "failed", step := "design",
         error := some ("Design phase error: " ++ msg) }]
  | none =>
  if !o.approved then
    [design,
     { status := "failed", step := "reviewing",
       error := some "Generation did not meet quality standards" }]
  else
  let coding : StatusUpdate := { status := "in_progress", step := "coding" }
  match o.codingRaises with
  | some msg =>
      [design, coding,
       { status := "failed", step := "coding",
         error := some ("File preparation error: " ++ msg) }]
  | none =>
  let validating : StatusUpdate := { status := "in_progress", step := "validating" }
  match o.validationRaises with
  | some msg =>
      [design, coding, validating,
       { status := "failed", step := "validating",
         error := some ("Validation error: " ++ msg) }]
  | none =>
  match o.validationError with
  | some err =>
      [design, coding, validating,
       { status := "failed", step := "validating",
         error := some (validationUserMessage err) }]
  | none =>
  let packaging : StatusUpdate := { status := "in_progress", step := "packaging" }
  match o.packagingRaises with
  | some msg =>
      [design, coding, validating, packaging,
       { status := "failed", step := "packaging",
         error := some ("Packaging error: " ++ msg) }]
  | none =>
  let downloadUpd : StatusUpdate :=
    { status := "in_progress", step := "deploying",
      download_url := some ("/downloads/" ++ job_id ++ ".zip") }
  let githubUpds : List StatusUpdate :=
    match o.github with
    | GithubOutcome.success url =>
        [{ status := "in_progress", step := "deploying", github_url := some url }]
    | _ => []
  let finalUpd : List StatusUpdate :=
    match o.completionRaises with
    | some msg =>
        [{ status := "failed", step := "error",
           error := some ("Completion error: " ++ msg) }]
    | none => [{ status := "complete", step := "complete" }]
  [design, coding, validating, packaging, downloadUpd] ++ githubUpds ++ finalUpd

/-- Apply a pipeline's updates to the store in order; `times k` is the
`datetime.utcnow()` string of the `k`-th update. -/
def applyUpdatesFrom (job_id : String) (times : ℕ → String) :
    ℕ → JobStore → List StatusUpdate → JobStore
  | _, store, [] => store
  | k, store, su :: rest =>
      applyUpdatesFrom job_id times (k + 1)
        (update_job_status store job_id su (times k)) rest

/-- One whole `generate_app` run applied to the store. -/
def run_generate_app (store : JobStore) (job_id : String) (o : RunOutcome)
    (times : ℕ → String) : JobStore :=
  applyUpdatesFrom job_id times 0 store (generate_app_updates job_id o)

/-! ## Job listing and the stuck-job monitor (`app/services/job_timeout.py`) -/

/-- The `ORDER BY created_at DESC` relation of `storage.list_jobs`. -/
def jobOrder (a b : Job) : Prop := b.created_at ≤ a.created_at

instance : DecidableRel jobOrder := fun a b => Int.decLe b.created_at a.created_at

/-- `storage.list_jobs`: optional filters, then order by `created_at`
descending, then `LIMIT limit OFFSET offset`.  SQL leaves the relative order
of equal sort keys unspecified; the embedding fixes it with a stable
insertion sort. -/
def list_jobs (store : JobStore) (limit offset : ℕ)
    (user_id status search : Option String) : List Job :=
  let q : List Job := store
  let q : List Job := match user_id with
    | some uid => q.filter (fun j => j.user_id == some uid)
    | none => q
  let q : List Job := match status with
    | some st => q.filter (fun j => j.status == st)
    | none => q
  let q : List Job := match search with
    | some s => q.filter (fun j => containsSub s j.prompt)
    | none => q
  ((q.insertionSort jobOrder).drop offset).take limit

/-- The fixed update the monitor applies to a stuck job. -/
def timeoutUpdate : JobUpdate :=
  { status := some "failed"
    step := some "timeout"
    error := some "Job timed out after 15 minutes of inactivity." }

/-- The per-job test of one monitor sweep: skip unless
`status == "in_progress"`; skip a missing or empty (`falsy`) `updated_at`;
skip an unparseable timestamp; mark stuck when
`now - updated_at > timeout_delta` (strict).  `parse` abstracts
`datetime.fromisoformat` with the code's `Z`/timezone normalisation. -/
def stuckCheck (parse : String → Option Int) (now timeout_delta : Int)
    (j : Job) : Bool :=
  if j.status != "in_progress" then false
  else
    match j.updated_at with
    | none => false
    | some s =>
      if s = "" then false
      else
        match parse s with
        | none => false
        | some t => decide (timeout_delta < now - t)

/-- One iteration of the `while True` loop of `check_stuck_jobs`: list jobs
(`limit=1000, offset=0`, no filters) and force-fail every stuck one through
`storage.update_job`. -/
def check_stuck_jobs_once (parse : String → Option Int)
    (now timeout_delta : Int) (nowStr : String) (store : JobStore) : JobStore :=
  (list_jobs store 1000 0 none none none).foldl
    (fun st j =>
      if stuckCheck parse now timeout_delta j then
        update_job_store st j.id timeoutUpdate nowStr
      else st)
    store

/-- The specification-side sweep condition: status `in_progress` and a
present, parseable `updated_at` older than the deadline. -/
def isStuckSpec (parse : String → Option Int) (now timeout_delta : Int)
    (j : Job) : Prop :=
  j.status = "in_progress" ∧
    ∃ s t, j.updated_at = some s ∧ parse s = some t ∧ timeout_delta < now - t

/-! ## Interleaved executions of the pipeline and the monitor -/

/-- One atomic step of the core: either one `_update_job_status` call of some
job's pipeline task, or one full monitor sweep. -/
inductive CoreEvent where
  | pipelineStep (job_id : String) (su : StatusUpdate) (nowStr : String)
  | monitorSweep (now : Int) (nowStr : String)

def applyEvent (parse : String → Option Int) (timeout_delta : Int)
    (store : JobStore) : CoreEvent → JobStore
  | CoreEvent.pipelineStep job_id su nowStr => update_job_status store job_id su nowStr
  | CoreEvent.monitorSweep now nowStr =>
      check_stuck_jobs_once parse now timeout_delta nowStr store

def runEvents (parse : String → Option Int) (timeout_delta : Int)
    (store : JobStore) (events : List CoreEvent) : JobStore :=
  events.foldl (applyEvent parse timeout_delta) store

/-! ## Broadcast hub (`ConnectionManager` in `app/routes/generate.py`) -/

/-- `self.active_connections : dict[str, List[WebSocket]]`, as an association
list with unique keys. -/
abbrev ConnMap (Conn : Type) := List (String × List Conn)

def lookupTopic {Conn : Type} (m : ConnMap Conn) (topic : String) :
    Option (List Conn) :=
  (m.find? (fun p => p.1 == topic)).map Prod.snd

/-- The subscriber list of a topic (empty when the key is absent). -/
def subscribersOf {Conn : Type} (m : ConnMap Conn) (topic : String) :
    List Conn :=
  (lookupTopic m topic).getD []

/-- In-place mutation of the list stored under an existing key. -/
def setTopic {Conn : Type} (topic : String) (l : List Conn) :
    ConnMap Conn → ConnMap Conn
  | [] => []
  | p :: ps => if p.1 == topic then (topic, l) :: ps else p :: setTopic topic l ps

/-- `del self.active_connections[job_id]`. -/
def removeTopic {Conn : Type} (topic : String) : ConnMap Conn → ConnMap Conn
  | [] => []
  | p :: ps => if p.1 == topic then ps else p :: removeTopic topic ps

/-- `ConnectionManager.disconnect`: remove the first occurrence of the
connection from the topic's list (`list.remove`), dropping the key when the
list becomes empty. -/
def disconnect {Conn : Type} [DecidableEq Conn] (m : ConnMap Conn)
    (conn : Conn) (job_id : String) : ConnMap Conn :=
  match lookupTopic m job_id with
  | none => m
  | some l =>
    let l' := l.erase conn
    if l'.isEmpty then removeTopic job_id m else setTopic job_id l' m

/-- `ConnectionManager.broadcast_to_job`: when the topic has no entry, return
immediately; otherwise attempt the send to every registered connection in
order (`fails c` models `send_json` raising for `c`), collect the failing
ones, and disconnect exactly those afterwards.  Returns (new state, attempted
connections, connections that received the event). -/
def broadcast_to_job {Conn : Type} [DecidableEq Conn] (fails : Conn → Bool)
    (m : ConnMap Conn) (job_id : String) :
    ConnMap Conn × List Conn × List Conn :=
  match lookupTopic m job_id with
  | none => (m, [], [])
  | some conns =>
    let delivered := conns.filter (fun c => !fails c)
    let disconnected := conns.filter fails
    (disconnected.foldl (fun acc c => disconnect acc c job_id) m,
     conns, delivered)

/-! ## Concrete instances used by counterexamples and witnesses -/

/-- A concrete timestamp parser for concrete executions (decimal seconds). -/
def demoParse : String → Option Int := fun s =>
  if s = "0" then some 0
  else if s = "10" then some 10
  else if s = "2010" then some 2010
  else none

/-- A freshly created job, as `routes/generate.py` initialises it. -/
def pendingJob : Job :=
  { id := "j", prompt := "demo", created_at := 0, updated_at := some "0" }

def c1DesignUpd : StatusUpdate := { status := "in_progress", step := "design" }

def c1CodingUpd : StatusUpdate := { status := "in_progress", step := "coding" }

/-- The job store after: pipeline enters the design phase at time 10, then a
monitor sweep runs at time 2000 (deadline 900). -/
def c1Store1 : JobStore :=
  runEvents demoParse 900 [pendingJob]
    [CoreEvent.pipelineStep "j" c1DesignUpd "10",
     CoreEvent.monitorSweep 2000 "2000"]

/-- ... and after the still-running pipeline task then enters the coding
phase. -/
def c1Store2 : JobStore :=
  applyEvent demoParse 900 c1Store1 (CoreEvent.pipelineStep "j" c1CodingUpd "2010")

/-- Distinct job ids for the large-store counterexample. -/
def natToId (n : ℕ) : String := String.mk (List.replicate n 'a')

/-- An `in_progress` job with a stale parseable timestamp; `created_at`
decreases with `n`, so `mkStuckJob 1000` is the oldest. -/
def mkStuckJob (n : ℕ) : Job :=
  { id := natToId n, status := "in_progress", step := "design",
    created_at := -(n : Int), updated_at := some "0" }

/-- A store of 1001 stuck jobs, newest first. -/
def bigStore : JobStore := (List.range 1001).map mkStuckJob

/-- A job already in a terminal state (for witnesses). -/
def completeJob : Job :=
  { id := "done", status := "complete", step := "complete",
    download_url := some "/downloads/done.zip", created_at := 3,
    updated_at := some "0" }

/-- A second pending job used in witnesses. -/
def jobA : Job :=
  { id := "a", prompt := "demo", created_at := 5, updated_at := some "0" }

/-- A stuck job for the C9 witness. -/
def staleJob : Job :=
  { id := "s", status := "in_progress", step := "design", created_at := 1,
    updated_at := some "10" }

/-- A recently-updated job for the C9 witness. -/
def freshJob : Job :=
  { id := "f", status := "in_progress", step := "coding", created_at := 0,
    updated_at := some "2010" }

/-- A parsed review JSON used in witnesses. -/
def demoReview : ReviewJson :=
  { requirements_match := 7
    functional_completeness := 9
    ui_ux_reasonableness := 5
    ready_for_user := true }

/-- A generator oracle for controller witnesses. -/
def c5Gen : ℕ → CodeResult := fun _ => {}

/-- A reviewer oracle that never approves (default-valued sub-scores). -/
def c5Rev : ℕ → ReviewOutput := fun i => review_against_spec 80 i (some {})

/-- A reviewer oracle that rejects iteration 0 and approves iteration 1. -/
def c6Rev : ℕ → ReviewOutput := fun i =>
  if i = 0 then review_against_spec 80 0 (some {})
  else review_against_spec 80 i
    (some { requirements_match := 9
            functional_completeness := 9
            ui_ux_reasonableness := 9
            ready_for_user := true })

/-! # Theorems -/

/-! Basic lemmas about `updateFirst` / `findJob`. -/

theorem updateFirst_of_not_found (job_id : String) (f : Job → Job) :
    ∀ store : JobStore, findJob store job_id = none → updateFirst job_id f store = store := by
  intro store
  induction store with
  | nil => intro _; rfl
  | cons j js ih =>
    intro h
    simp only [findJob, List.find?_cons] at h
    by_cases hj : (j.id == job_id) = true
    · rw [hj] at h; exact absurd h (by simp)
    · rw [Bool.not_eq_true] at hj
      rw [hj] at h
      simp only [updateFirst, hj, Bool.false_eq_true, if_false]
      rw [ih h]

theorem findJob_updateFirst_self (job_id : String) (f : Job → Job)
    (hf : ∀ x, (f x).id = x.id) :
    ∀ store : JobStore, ∀ j : Job, findJob store job_id = some j →
      findJob (updateFirst job_id f store) job_id = some (f j) := by
  intro store
  induction store with
  | nil => intro j h; simp [findJob] at h
  | cons a js ih =>
    intro j h
    simp only [findJob, List.find?_cons] at h ⊢
    by_cases ha : (a.id == job_id) = true
    · rw [ha] at h
      simp only [if_true] at h
      have haj : a = j := by injection h
      subst haj
      have hfa : ((f a).id == job_id) = true := by rw [hf a]; exact ha
      simp [updateFirst, ha, List.find?_cons, hfa]
    · rw [Bool.not_eq_true] at ha
      rw [ha] at h
      simp only [Bool.false_eq_true, if_false] at h
      simp only [updateFirst, ha, Bool.false_eq_true, if_false]
      simp only [findJob, List.find?_cons, ha, Bool.false_eq_true, if_false] at ih ⊢
      exact ih j h

theorem findJob_updateFirst_other (job_id other : String) (f : Job → Job)
    (hf : ∀ x, (f x).id = x.id) (hne : other ≠ job_id) :
    ∀ store : JobStore,
      findJob (updateFirst job_id f store) other = findJob store other := by
  intro store
  induction store with
  | nil => rfl
  | cons a js ih =>
    by_cases ha : (a.id == job_id) = true
    · have haid : a.id = job_id := by exact eq_of_beq ha
      have hao : (a.id == other) = false := by
        rw [haid]
        exact beq_eq_false_iff_ne.mpr (fun h => hne h.symm)
      have hfo : ((f a).id == other) = false := by rw [hf a]; exact hao
      simp [updateFirst, ha, findJob, List.find?_cons, hao, hfo]
    · rw [Bool.not_eq_true] at ha
      simp only [updateFirst, ha, Bool.false_eq_true, if_false]
      simp only [findJob, List.find?_cons] at ih ⊢
      cases hao : (a.id == other) <;> simp [hao, ih]

/-- With unique ids, a member of the store is found under its own id. -/
theorem findJob_of_nodup :
    ∀ store : JobStore, (store.map Job.id).Nodup → ∀ j ∈ store,
      findJob store j.id = some j := by
  intro store
  induction store with
  | nil => intro _ j hj; simp at hj
  | cons a t ih =>
    intro hnd j hj
    simp only [List.map_cons, List.nodup_cons] at hnd
    rcases List.mem_cons.mp hj with rfl | hjt
    · simp [findJob, List.find?_cons]
    · have hne : (a.id == j.id) = false := by
        rw [beq_eq_false_iff_ne]
        intro h
        exact hnd.1 (h ▸ List.mem_map_of_mem Job.id hjt)
      simp only [findJob, List.find?_cons, hne, Bool.false_eq_true, if_false]
      exact ih hnd.2 j hjt

/-- C3 counterexample: on a store that does not contain the id, `update_job`
returns normally with the store unchanged instead of failing with
`NotFound`. -/
theorem update_job_missing_id_counterexample :
    findJob [] "job-1" = none ∧
    update_job [] "job-1" { status := some "failed" } "t1" = Except.ok [] ∧
    update_job [] "job-1" { status := some "failed" } "t1" ≠
      Except.error StorageError.notFound := by
  refine ⟨rfl, rfl, ?_⟩
  intro h
  exact Except.noConfusion h

/-- C3 (amended): `update_job` on an absent id is a silent no-op — it returns
normally and leaves the store unchanged, raising no `NotFound` — and on a
present id it overwrites exactly the fields passed as non-`None`, leaves
every other field and every other job unchanged, and bumps `updated_at`. -/
theorem update_job_silent_merge_characterization :
    (∀ (store : JobStore) (job_id : String) (u : JobUpdate) (nowStr : String),
        findJob store job_id = none →
        update_job store job_id u nowStr = Except.ok store) ∧
    (∀ (store : JobStore) (job_id : String) (u : JobUpdate) (nowStr : String)
        (j : Job), findJob store job_id = some j →
        ∃ store', update_job store job_id u nowStr = Except.ok store' ∧
          findJob store' job_id = some
            { j with
              status := u.status.getD j.status
              step := u.step.getD j.step
              download_url := u.download_url.or j.download_url
              github_url := u.github_url.or j.github_url
              deployment_url := u.deployment_url.or j.deployment_url
              error := u.error.or j.error
              updated_at := some nowStr } ∧
          ∀ other, other ≠ job_id → findJob store' other = findJob store other) := by
  constructor
  · intro store job_id u nowStr h
    unfold update_job update_job_store
    rw [updateFirst_of_not_found _ _ _ h]
  · intro store job_id u nowStr j h
    refine ⟨update_job_store store job_id u nowStr, rfl, ?_, ?_⟩
    · exact findJob_updateFirst_self job_id (fun x => applyFields x u nowStr)
        (fun x => rfl) store j h
    · intro other hne
      exact findJob_updateFirst_other job_id other
        (fun x => applyFields x u nowStr) (fun x => rfl) hne store

/-- Witness for the amended C3 theorem at concrete inputs. -/
theorem update_job_silent_merge_witness :
    (update_job [] "a" { status := some "failed" } "t1" = Except.ok []) ∧
    (∃ store', update_job [jobA] "a"
        { status := some "in_progress", step := some "coding" } "t2" =
          Except.ok store' ∧
      findJob store' "a" = some
        { jobA with
          status := "in_progress"
          step := "coding"
          updated_at := some "t2" } ∧
      ∀ other, other ≠ "a" → findJob store' other = findJob [jobA] other) := by
  constructor
  · exact update_job_silent_merge_characterization.1 [] "a" _ "t1" rfl
  · exact update_job_silent_merge_characterization.2 [jobA] "a" _ "t2" jobA rfl

/-- A normalised path without forward slashes was already in normal form. -/
theorem normalizeSlashes_eq_self (p : PathStr) (h : '/' ∉ normalizeSlashes p) :
    normalizeSlashes p = p := by
  induction p with
  | nil => rfl
  | cons c t ih =>
    simp only [normalizeSlashes, List.map_cons, List.mem_cons, not_or] at h ⊢
    obtain ⟨h1, h2⟩ := h
    have hc : (if c = '\\' then '/' else c) = c := by
      by_cases hcc : c = '\\'
      · subst hcc; simp at h1
      · simp [hcc]
    rw [hc]
    have ht := ih h2
    simp only [normalizeSlashes] at ht
    rw [ht]

/-- C8: root-level entry-point resolution returns `app.py` whenever both
`app.py` and `main.py` are present as root-level keys, by the fixed priority
order of `ENTRYPOINT_CANDIDATES`. -/
theorem entrypoint_priority_app_over_main (paths : List PathStr)
    (happ : "app.py".data ∈ paths) (_hmain : "main.py".data ∈ paths) :
    find_entrypoint_in_file_paths paths true = some "app.py".data := by
  have hpred : entryMatch true "app.py".data "app.py".data = true := by
    simp [entryMatch]
  have hsome : (paths.find? (fun p => entryMatch true p "app.py".data)).isSome := by
    rw [List.find?_isSome]
    exact ⟨_, happ, hpred⟩
  obtain ⟨q, hq⟩ := Option.isSome_iff_exists.mp hsome
  have hqmatch := List.find?_some hq
  have hqeq : q = "app.py".data := by
    simp only [entryMatch, if_true, Bool.or_eq_true, beq_iff_eq] at hqmatch
    rcases hqmatch with h | h
    · exact h
    · have hnoslash : '/' ∉ normalizeSlashes q := by
        rw [h]; decide
      exact (normalizeSlashes_eq_self q hnoslash).symm.trans h
  subst hqeq
  simp only [find_entrypoint_in_file_paths, ENTRYPOINT_CANDIDATES, findForCandidates]
  rw [hq]

/-- Witness for the C8 theorem at a concrete file set. -/
theorem entrypoint_priority_witness :
    ("app.py".data ∈ ["lib/util.py".data, "main.py".data, "app.py".data]) ∧
    ("main.py".data ∈ ["lib/util.py".data, "main.py".data, "app.py".data]) ∧
    find_entrypoint_in_file_paths
        ["lib/util.py".data, "main.py".data, "app.py".data] true =
      some "app.py".data := by
  refine ⟨by decide, by decide, ?_⟩
  exact entrypoint_priority_app_over_main _ (by decide) (by decide)

/-- C1 counterexample: a concrete interleaving in which the monitor times out
a job (status `failed`, step `timeout`) while its pipeline task is still
running, after which the pipeline's next phase-entry update overwrites the
terminal status back to `in_progress`: the stored status regresses from a
terminal state. -/
theorem terminal_status_regression_counterexample :
    (findJob c1Store1 "j").map Job.status = some "failed" ∧
    (findJob c1Store1 "j").map Job.step = some "timeout" ∧
    (findJob c1Store2 "j").map Job.status = some "in_progress" ∧
    (findJob c1Store2 "j").map Job.step = some "coding" := by decide

/-- C2 counterexample: a reviewer call that errors (or whose response cannot
be parsed) at iteration 1 with the default threshold 80 is replaced by the
synthesized fallback review, which carries score 85 and `approved = true`:
the iteration is approved as a direct consequence of the collaborator
error. -/
theorem reviewer_error_approved_counterexample :
    (review_against_spec 80 1 none).score = 85 ∧
    (review_against_spec 80 1 none).approved = true ∧
    (review_against_spec 80 1 none).obvious_red_flags =
      ["OpenAI not configured for review"] := by
  refine ⟨rfl, ?_, rfl⟩
  decide

/-- C2 (amended): a reviewer collaborator error does not propagate — it is
swallowed into the synthesized fallback review (score 70 on iteration 0 and
85 afterwards, approved exactly when that score meets the threshold, red
flags notwithstanding); errors raised by the other design-phase
collaborators (spec extraction, UX planning, code generation) do propagate
out of the controller, and the pipeline then marks the job failed in the
design phase with a phase-scoped message. -/
theorem collaborator_error_handling_amended :
    (∀ (thr : ℚ) (iteration : ℕ),
        review_against_spec thr iteration none = fallback_review thr iteration ∧
        (review_against_spec thr iteration none).score =
          (if iteration > 0 then (85 : ℚ) else 70) ∧
        ((review_against_spec thr iteration none).approved = true ↔
          thr ≤ (if iteration > 0 then (85 : ℚ) else 70))) ∧
    (∀ (job_id msg : String) (o : RunOutcome), o.designRaises = some msg →
        generate_app_updates job_id o =
          [{ status := "in_progress", step := "design" },
           { status := "failed", step := "design",
             error := some ("Design phase error: " ++ msg) }]) := by
  constructor
  · intro thr iteration
    refine ⟨rfl, rfl, ?_⟩
    simp [review_against_spec, fallback_review]
  · intro job_id msg o h
    simp [generate_app_updates, h]

/-- Witness for the amended C2 theorem at concrete inputs. -/
theorem collaborator_error_handling_witness :
    ((review_against_spec 90 1 none).approved = true ↔ (90 : ℚ) ≤ 85) ∧
    generate_app_updates "j" { designRaises := some "boom" } =
      [{ status := "in_progress", step := "design" },
       { status := "failed", step := "design",
         error := some ("Design phase error: " ++ "boom") }] := by
  constructor
  · exact (collaborator_error_handling_amended.1 90 1).2.2
  · exact collaborator_error_handling_amended.2 "j" "boom" _ rfl

/-- C4 counterexample: the fallback path emits a review whose score ignores
the weighted-sum formula (its sub-scores 8/8/8 give a weighted 80 while the
emitted score is 70) and whose `approved` ignores the red-flag conjunct
(true at threshold 50 despite non-empty `obvious_red_flags`). -/
theorem review_score_formula_counterexample :
    (review_against_spec 50 0 none).requirements_match = 8 ∧
    (review_against_spec 50 0 none).functional_completeness = 8 ∧
    (review_against_spec 50 0 none).ui_ux_reasonableness = 8 ∧
    weightedScore { requirements_match := 8, functional_completeness := 8,
                    ui_ux_reasonableness := 8 } = 80 ∧
    (review_against_spec 50 0 none).score = 70 ∧
    (review_against_spec 50 0 none).approved = true ∧
    (review_against_spec 50 0 none).obvious_red_flags ≠ [] := by
  refine ⟨rfl, rfl, rfl, by norm_num [weightedScore], rfl, by decide, by decide⟩

/-- C4 (amended): on the successful-parse path, the emitted score is the
weighted sum ×10 rounded to one decimal (exactly `4a + 4b + 2c` when the
sub-scores are the integers `a`, `b`, `c`), and `approved` is precisely the
conjunction score ≥ threshold ∧ `ready_for_user` ∧ no red flags, the
comparison using the unrounded weighted score; on the fallback path the
score is 70 or 85 and `approved` is the threshold comparison alone. -/
theorem review_result_derivation_amended :
    (∀ (thr : ℚ) (it : ℕ) (r : ReviewJson),
        (review_against_spec thr it (some r)).score = round1 (weightedScore r) ∧
        ((review_against_spec thr it (some r)).approved = true ↔
          (thr ≤ weightedScore r ∧ r.ready_for_user = true ∧
            r.obvious_red_flags = []))) ∧
    (∀ (thr : ℚ) (it : ℕ) (r : ReviewJson) (a b c : ℕ),
        r.requirements_match = a → r.functional_completeness = b →
        r.ui_ux_reasonableness = c →
        (review_against_spec thr it (some r)).score = 4 * a + 4 * b + 2 * c) ∧
    (∀ (thr : ℚ) (it : ℕ),
        (review_against_spec thr it none).score =
          (if it > 0 then (85 : ℚ) else 70) ∧
        ((review_against_spec thr it none).approved = true ↔
          thr ≤ (if it > 0 then (85 : ℚ) else 70))) := by
  refine ⟨?_, ?_, ?_⟩
  · intro thr it r
    constructor
    · rfl
    · simp [review_against_spec, Bool.and_eq_true, List.length_eq_zero,
        and_assoc]
  · intro thr it r a b c h1 h2 h3
    have hw : weightedScore r = ((4 * a + 4 * b + 2 * c : ℕ) : ℚ) := by
      unfold weightedScore
      rw [h1, h2, h3]
      push_cast
      ring
    have hscore : (review_against_spec thr it (some r)).score =
        round1 (weightedScore r) := rfl
    rw [hscore, hw]
    unfold round1
    rw [show (((4 * a + 4 * b + 2 * c : ℕ) : ℚ) * 10) =
        (((4 * a + 4 * b + 2 * c) * 10 : ℕ) : ℚ) by push_cast; ring]
    rw [round_natCast]
    push_cast
    ring
  · intro thr it
    refine ⟨rfl, ?_⟩
    simp [review_against_spec, fallback_review]

/-- Witness for the amended C4 theorem at concrete inputs. -/
theorem review_result_derivation_witness :
    (review_against_spec 80 0 (some demoReview)).score =
      4 * (7 : ℕ) + 4 * (9 : ℕ) + 2 * (5 : ℕ) ∧
    ((review_against_spec 80 0 (some demoReview)).approved = true ↔
      ((80 : ℚ) ≤ weightedScore demoReview ∧
        demoReview.ready_for_user = true ∧
        demoReview.obvious_red_flags = [])) := by
  constructor
  · exact review_result_derivation_amended.2.1 80 0 demoReview 7 9 5 rfl rfl rfl
  · exact (review_result_derivation_amended.1 80 0 demoReview).2

/-- When every review is rejected, the iteration loop consumes all its fuel,
appending one IterationRecord per iteration, and ends in the
max-iterations result. -/
theorem coordinate_loop_all_rejected (mi : ℕ) (gen : ℕ → CodeResult)
    (rev : ℕ → ReviewOutput) (hrev : ∀ k, (rev k).approved = false) :
    ∀ (fuel i : ℕ) (hist : List IterationRecord),
      coordinate_loop mi gen rev fuel i hist =
        match (hist ++ (List.range fuel).map
            (fun d => (⟨i + d + 1, gen (i + d), rev (i + d)⟩ :
              IterationRecord))).getLast? with
        | some best =>
          some { approved := false
                 code := best.code_result
                 review := best.review
                 iterations := mi
                 iteration_history := hist ++ (List.range fuel).map
                   (fun d => (⟨i + d + 1, gen (i + d), rev (i + d)⟩ :
                     IterationRecord))
                 errorTag := some "Maximum iterations reached without approval" }
        | none => none := by
  intro fuel
  induction fuel with
  | zero =>
    intro i hist
    simp [coordinate_loop]
  | succ n ih =>
    intro i hist
    have hcond : ((rev i).approved && (rev i).ready_for_user) = false := by
      rw [hrev i]; rfl
    have hmap : (List.range (n + 1)).map
        (fun d => (⟨i + d + 1, gen (i + d), rev (i + d)⟩ : IterationRecord)) =
        (⟨i + 1, gen i, rev i⟩ : IterationRecord) ::
          (List.range n).map
            (fun d => ⟨i + 1 + d + 1, gen (i + 1 + d), rev (i + 1 + d)⟩) := by
      rw [List.range_succ_eq_map, List.map_cons, List.map_map]
      simp only [Nat.add_zero]
      congr 1
      apply List.map_congr_left
      intro d _
      simp only [Function.comp_apply, Nat.succ_eq_add_one]
      have hd : i + (d + 1) = i + 1 + d := by omega
      rw [hd]
    simp only [coordinate_loop, hcond, Bool.false_eq_true, if_false]
    rw [ih (i + 1) (hist ++ [(⟨i + 1, gen i, rev i⟩ : IterationRecord)])]
    rw [hmap, List.append_assoc, List.singleton_append]

/-- C5: with a reviewer that never approves, the controller performs exactly
`max_iterations` generate-review iterations, records exactly that many
IterationRecords, and returns a non-approved result tagged with the
max-iterations message, carrying the last iteration's code and review. -/
theorem iteration_exhaustion (max_iterations : ℕ) (gen : ℕ → CodeResult)
    (rev : ℕ → ReviewOutput) (hpos : 1 ≤ max_iterations)
    (hrev : ∀ k, (rev k).approved = false) :
    coordinate_generation max_iterations gen rev =
      some { approved := false
             code := gen (max_iterations - 1)
             review := rev (max_iterations - 1)
             iterations := max_iterations
             iteration_history := (List.range max_iterations).map
               (fun d => ⟨d + 1, gen d, rev d⟩)
             errorTag := some "Maximum iterations reached without approval" } ∧
    ((List.range max_iterations).map
        (fun d => (⟨d + 1, gen d, rev d⟩ : IterationRecord))).length =
      max_iterations := by
  obtain ⟨m, rfl⟩ : ∃ m, max_iterations = m + 1 := ⟨max_iterations - 1, by omega⟩
  refine ⟨?_, by simp⟩
  unfold coordinate_generation
  rw [coordinate_loop_all_rejected _ _ _ hrev]
  simp only [List.nil_append, Nat.zero_add, Nat.add_sub_cancel]
  have hlast : ((List.range (m + 1)).map
      (fun d => (⟨d + 1, gen d, rev d⟩ : IterationRecord))).getLast? =
      some ⟨m + 1, gen m, rev m⟩ := by
    rw [List.range_succ, List.map_append, List.map_cons, List.map_nil,
      List.getLast?_concat]
  rw [hlast]

/-- C6: every review the reviewer emits satisfies approved → ready_for_user
(on both its code paths), and whenever iteration 0 is not approved-and-ready
while iteration 1's review is approved, the controller stops right after the
second iteration: it returns success with iteration 1's code and review,
records exactly two IterationRecords, and never calls the generator a third
time. -/
theorem early_stop_on_approval :
    (∀ (thr : ℚ) (it : ℕ) (resp : Option ReviewJson),
        (review_against_spec thr it resp).approved = true →
        (review_against_spec thr it resp).ready_for_user = true) ∧
    (∀ (max_iterations : ℕ) (gen : ℕ → CodeResult) (rev : ℕ → ReviewOutput),
        2 ≤ max_iterations →
        ((rev 0).approved = false ∨ (rev 0).ready_for_user = false) →
        (rev 1).approved = true → (rev 1).ready_for_user = true →
        coordinate_generation max_iterations gen rev =
          some { approved := true
                 code := gen 1
                 review := rev 1
                 iterations := 2
                 iteration_history :=
                   [⟨1, gen 0, rev 0⟩, ⟨2, gen 1, rev 1⟩]
                 errorTag := none }) := by
  constructor
  · intro thr it resp happ
    cases resp with
    | none => rfl
    | some r =>
      simp only [review_against_spec, Bool.and_eq_true] at happ ⊢
      exact happ.1.2
  · intro mi gen rev hmi h0 h1 h1r
    obtain ⟨m, rfl⟩ : ∃ m, mi = m + 2 := ⟨mi - 2, by omega⟩
    have hc0 : ((rev 0).approved && (rev 0).ready_for_user) = false := by
      rcases h0 with h | h <;> simp [h]
    have hc1 : ((rev 1).approved && (rev 1).ready_for_user) = true := by
      simp [h1, h1r]
    simp only [coordinate_generation, coordinate_loop, hc0, hc1,
      Bool.false_eq_true, if_false, if_true, List.nil_append,
      List.singleton_append]

/-- Witness for the C5 theorem at concrete inputs. -/
theorem iteration_exhaustion_witness :
    coordinate_generation 3 c5Gen c5Rev =
      some { approved := false
             code := c5Gen 2
             review := c5Rev 2
             iterations := 3
             iteration_history := (List.range 3).map
               (fun d => ⟨d + 1, c5Gen d, c5Rev d⟩)
             errorTag := some "Maximum iterations reached without approval" } ∧
    ((List.range 3).map
        (fun d => (⟨d + 1, c5Gen d, c5Rev d⟩ : IterationRecord))).length = 3 :=
  iteration_exhaustion 3 c5Gen c5Rev (by omega)
    (fun k => by simp [c5Rev, review_against_spec])

/-- Witness for the C6 theorem at concrete inputs. -/
theorem early_stop_on_approval_witness :
    coordinate_generation 3 c5Gen c6Rev =
      some { approved := true
             code := c5Gen 1
             review := c6Rev 1
             iterations := 2
             iteration_history :=
               [⟨1, c5Gen 0, c6Rev 0⟩, ⟨2, c5Gen 1, c6Rev 1⟩]
             errorTag := none } :=
  early_stop_on_approval.2 3 c5Gen c6Rev (by omega)
    (Or.inl (by simp [c6Rev, review_against_spec]))
    (by norm_num [c6Rev, review_against_spec, weightedScore])
    (by norm_num [c6Rev, review_against_spec])

/-! ### Lemmas about one monitor sweep -/

/-- The monitor's job listing call, unfolded. -/
theorem list_jobs_monitor (store : JobStore) :
    list_jobs store 1000 0 none none none =
      (store.insertionSort jobOrder).take 1000 := rfl

/-- Folding the sweep over jobs whose stuck entries all have ids different
from the target leaves the target's row untouched. -/
theorem sweep_foldl_frame (parse : String → Option Int) (now delta : Int)
    (nowStr : String) (target : String) :
    ∀ (l : List Job) (st : JobStore),
      (∀ x ∈ l, stuckCheck parse now delta x = true → x.id ≠ target) →
      findJob (l.foldl (fun st j =>
          if stuckCheck parse now delta j then
            update_job_store st j.id timeoutUpdate nowStr
          else st) st) target =
        findJob st target := by
  intro l
  induction l with
  | nil => intro st _; rfl
  | cons a t ih =>
    intro st h
    simp only [List.foldl_cons]
    rw [ih _ (fun x hx hs => h x (List.mem_cons_of_mem a hx) hs)]
    by_cases hs : stuckCheck parse now delta a = true
    · simp only [hs, if_true]
      exact findJob_updateFirst_other a.id target
        (fun x => applyFields x timeoutUpdate nowStr) (fun x => rfl)
        (Ne.symm (h a (List.mem_cons_self a t) hs)) st
    · simp only [Bool.not_eq_true] at hs
      simp only [hs, Bool.false_eq_true, if_false]

/-- Folding the sweep over a list with unique ids containing the stuck job
`j` applies exactly the timeout update to `j`'s row. -/
theorem sweep_foldl_hit (parse : String → Option Int) (now delta : Int)
    (nowStr : String) :
    ∀ (l : List Job) (st : JobStore) (j : Job),
      (l.map Job.id).Nodup → j ∈ l → stuckCheck parse now delta j = true →
      findJob st j.id = some j →
      findJob (l.foldl (fun st x =>
          if stuckCheck parse now delta x then
            update_job_store st x.id timeoutUpdate nowStr
          else st) st) j.id =
        some (applyFields j timeoutUpdate nowStr) := by
  intro l
  induction l with
  | nil => intro st j _ hj; simp at hj
  | cons a t ih =>
    intro st j hnd hj hs hst
    simp only [List.map_cons, List.nodup_cons] at hnd
    rcases List.mem_cons.mp hj with rfl | hjt
    · simp only [List.foldl_cons, hs, if_true]
      rw [sweep_foldl_frame parse now delta nowStr j.id t _
        (fun x hx _ hxid => hnd.1 (hxid ▸ List.mem_map_of_mem Job.id hx))]
      exact findJob_updateFirst_self j.id
        (fun x => applyFields x timeoutUpdate nowStr) (fun x => rfl) st j hst
    · have hne : a.id ≠ j.id :=
        fun he => hnd.1 (he ▸ List.mem_map_of_mem Job.id hjt)
      simp only [List.foldl_cons]
      apply ih _ j hnd.2 hjt hs
      by_cases hsa : stuckCheck parse now delta a = true
      · simp only [hsa, if_true]
        exact (findJob_updateFirst_other a.id j.id
          (fun x => applyFields x timeoutUpdate nowStr) (fun x => rfl)
          (Ne.symm hne) st).trans hst
      · simp only [Bool.not_eq_true] at hsa
        simp only [hsa, Bool.false_eq_true, if_false]
        exact hst

/-- The boolean sweep test agrees with the specification-side stuck
condition, given that the empty string is unparseable (as it is for
`datetime.fromisoformat`). -/
theorem stuckCheck_iff (parse : String → Option Int) (now delta : Int)
    (j : Job) (hparse : parse "" = none) :
    stuckCheck parse now delta j = true ↔ isStuckSpec parse now delta j := by
  unfold stuckCheck isStuckSpec
  by_cases hst : j.status = "in_progress"
  · have hbne : (j.status != "in_progress") = false := by
      simp [bne_iff_ne, hst]
    cases hu : j.updated_at with
    | none => simp [hbne, hst, hu]
    | some s =>
      by_cases hse : s = ""
      · subst hse
        simp [hbne, hst, hu, hparse]
      · cases hp : parse s with
        | none => simp [hbne, hst, hu, hse, hp]
        | some t => simp [hbne, hst, hu, hse, hp]
  · have hbne : (j.status != "in_progress") = true := by
      simp [bne_iff_ne, hst]
    simp [hbne, hst]

/-- Jobs listed by the monitor are members of the store, in number at most
1000 and with unique ids whenever the store's ids are unique. -/
theorem list_jobs_monitor_facts (store : JobStore)
    (hnodup : (store.map Job.id).Nodup) :
    (∀ x ∈ list_jobs store 1000 0 none none none, x ∈ store) ∧
    ((list_jobs store 1000 0 none none none).map Job.id).Nodup := by
  constructor
  · intro x hx
    rw [list_jobs_monitor] at hx
    exact (List.perm_insertionSort jobOrder store).subset
      ((List.take_sublist 1000 _).subset hx)
  · rw [list_jobs_monitor, List.map_take]
    exact List.Nodup.sublist (List.take_sublist 1000 _)
      (((List.perm_insertionSort jobOrder store).map Job.id).nodup_iff.mpr hnodup)

/-- C9 (amended): in one monitor sweep, a job with a unique id is
force-updated to `failed`/`timeout` with the fixed message if and only if it
is among the (at most 1000) listed jobs and satisfies the stuck condition —
status `in_progress` with a present, parseable `updated_at` older than the
deadline; every other job is left exactly unchanged. -/
theorem stuck_sweep_characterization
    (parse : String → Option Int) (now delta : Int) (nowStr : String)
    (store : JobStore) (j : Job)
    (hnodup : (store.map Job.id).Nodup) (hmem : j ∈ store)
    (hparse : parse "" = none) :
    (j ∈ list_jobs store 1000 0 none none none ∧ isStuckSpec parse now delta j →
      findJob (check_stuck_jobs_once parse now delta nowStr store) j.id =
        some { j with
               status := "failed"
               step := "timeout"
               error := some "Job timed out after 15 minutes of inactivity."
               updated_at := some nowStr }) ∧
    ((j ∉ list_jobs store 1000 0 none none none ∨
        ¬ isStuckSpec parse now delta j) →
      findJob (check_stuck_jobs_once parse now delta nowStr store) j.id =
        some j) := by
  obtain ⟨hsubset, hexnodup⟩ := list_jobs_monitor_facts store hnodup
  constructor
  · rintro ⟨hin, hstuck⟩
    unfold check_stuck_jobs_once
    exact sweep_foldl_hit parse now delta nowStr _ store j hexnodup hin
      ((stuckCheck_iff parse now delta j hparse).mpr hstuck)
      (findJob_of_nodup store hnodup j hmem)
  · intro h
    unfold check_stuck_jobs_once
    rw [sweep_foldl_frame parse now delta nowStr j.id _ store ?_]
    · exact findJob_of_nodup store hnodup j hmem
    · intro x hx hsx hxid
      have hxj : x = j :=
        List.inj_on_of_nodup_map hnodup (hsubset x hx) hmem hxid
      subst hxj
      rcases h with h | h
      · exact h hx
      · exact h ((stuckCheck_iff parse now delta x hparse).mp hsx)

/-- Witness for the amended C9 theorem: on a concrete two-job store, the
sweep fails the stale `in_progress` job and leaves the fresh one unchanged. -/
theorem stuck_sweep_witness :
    findJob (check_stuck_jobs_once demoParse 2000 900 "2000"
        [staleJob, freshJob]) staleJob.id =
      some { staleJob with
             status := "failed"
             step := "timeout"
             error := some "Job timed out after 15 minutes of inactivity."
             updated_at := some "2000" } ∧
    findJob (check_stuck_jobs_once demoParse 2000 900 "2000"
        [staleJob, freshJob]) freshJob.id = some freshJob := by
  constructor
  · exact (stuck_sweep_characterization demoParse 2000 900 "2000"
      [staleJob, freshJob] staleJob (by decide) (by decide) rfl).1
      ⟨by decide, rfl, "10", 10, rfl, rfl, by decide⟩
  · refine (stuck_sweep_characterization demoParse 2000 900 "2000"
      [staleJob, freshJob] freshJob (by decide) (by decide) rfl).2 (Or.inr ?_)
    rintro ⟨hstat, s, t, hs, hp, hlt⟩
    simp only [freshJob] at hs
    obtain rfl : s = "2010" := by injection hs with h; exact h.symm
    simp only [demoParse, if_false, if_true] at hp
    obtain rfl : t = 2010 := by
      by_cases h1 : ("2010" : String) = "0"
      · exact absurd h1 (by decide)
      · by_cases h2 : ("2010" : String) = "10"
        · exact absurd h2 (by decide)
        · simp [h1, h2] at hp
          exact hp.symm
    omega

/-- C1 (amended): terminal states are stable under the monitor — a sweep
never mutates a job whose status is not `in_progress` — and the pipeline's
own update sequence keeps status `in_progress` on every update before the
final one, so a run taken alone can only become terminal with its last
update.  (As the counterexample shows, the conjunction does not extend to
interleavings where a monitor timeout fires while the pipeline task is still
running: the pipeline then overwrites the terminal status.) -/
theorem terminal_status_stability_amended :
    (∀ (parse : String → Option Int) (now delta : Int) (nowStr : String)
        (store : JobStore),
        (store.map Job.id).Nodup →
        ∀ j ∈ store, j.status ≠ "in_progress" →
          findJob (check_stuck_jobs_once parse now delta nowStr store) j.id =
            some j) ∧
    (∀ (job_id : String) (o : RunOutcome),
        (((generate_app_updates job_id o).map StatusUpdate.status).dropLast.all
          (fun s => s == "in_progress")) = true) := by
  constructor
  · intro parse now delta nowStr store hnodup j hmem hstat
    unfold check_stuck_jobs_once
    rw [sweep_foldl_frame parse now delta nowStr j.id _ store ?_]
    · exact findJob_of_nodup store hnodup j hmem
    · intro x hx hsx hxid
      have hxj : x = j := List.inj_on_of_nodup_map hnodup
        ((list_jobs_monitor_facts store hnodup).1 x hx) hmem hxid
      subst hxj
      unfold stuckCheck at hsx
      have hbne : (x.status != "in_progress") = true := by
        simp [bne_iff_ne, hstat]
      rw [hbne] at hsx
      simp at hsx
  · intro job_id o
    rcases o with ⟨dr, ap, cr, vr, ve, pr, gh, comr⟩
    cases dr <;> cases ap <;> cases cr <;> cases vr <;> cases ve <;>
      cases pr <;> cases gh <;> cases comr <;>
      simp [generate_app_updates, List.dropLast]

/-- Witness for the amended C1 theorem at concrete inputs. -/
theorem terminal_status_stability_witness :
    findJob (check_stuck_jobs_once demoParse 2000 900 "2000" [completeJob])
        completeJob.id = some completeJob ∧
    (((generate_app_updates "j"
        { github := GithubOutcome.raised }).map StatusUpdate.status).dropLast.all
      (fun s => s == "in_progress")) = true := by
  constructor
  · exact terminal_status_stability_amended.1 demoParse 2000 900 "2000"
      [completeJob] (by decide) completeJob (by decide) (by decide)
  · exact terminal_status_stability_amended.2 "j"
      { github := GithubOutcome.raised }

/-! ### The pipeline's effect on a single-job store -/

/-- The download path recorded at packaging is never the empty string. -/
theorem downloads_eq_empty_iff (x : String) :
    ("/downloads/" ++ x ++ ".zip" = "") ↔ False := by
  constructor
  · intro h
    have hd := congrArg String.data h
    simp only [String.data_append] at hd
    simp at hd
  · exact False.elim

/-- Discharging the double fallback the composition of `_update_job_status`
and `update_job` applies to a URL field. -/
theorem pyOr_or_cancel (a b : Option String) : (pyOr a b).or b = pyOr a b := by
  cases a with
  | none => simp [pyOr, Option.or_self]
  | some s =>
    by_cases hs : s = ""
    · simp [pyOr, hs, Option.or_self]
    · simp [pyOr, hs, Option.or]

/-- One `_update_job_status` call on the store holding exactly the job it
addresses. -/
theorem update_job_status_singleton (j : Job) (su : StatusUpdate)
    (nowStr : String) :
    update_job_status [j] j.id su nowStr =
      [{ j with
         status := su.status
         step := su.step
         download_url := pyOr su.download_url j.download_url
         github_url := pyOr su.github_url j.github_url
         deployment_url := pyOr su.deployment_url j.deployment_url
         error := su.error.or j.error
         updated_at := some nowStr }] := by
  simp only [update_job_status, findJob, List.find?_cons, beq_self_eq_true,
    if_true, update_job_store, updateFirst, applyFields, Option.getD_some,
    Option.some_bind, pyOr_or_cancel]

theorem pyOr_none (y : Option String) : pyOr none y = y := rfl

/-- The packaging update's URL is non-empty, so the Python `or` keeps it. -/
theorem pyOr_downloads (x : String) (y : Option String) :
    pyOr (some ("/downloads/" ++ x ++ ".zip")) y =
      some ("/downloads/" ++ x ++ ".zip") := by
  have h : ("/downloads/" ++ x ++ ".zip") ≠ "" :=
    fun h => (downloads_eq_empty_iff x).mp h
  simp [pyOr, h]

/-- C7: when packaging succeeds (the artifact URL is recorded on the job)
and the publishing (GitHub) step afterwards raises, the recorded
`download_url` persists, the publishing failure does not fail the job, and
the pipeline proceeds to completion: the final snapshot carries the artifact
URL together with status `complete` and step `complete`. -/
theorem packaging_persists_through_publishing_failure
    (j0 : Job) (times : ℕ → String) :
    findJob (run_generate_app [j0] j0.id { github := GithubOutcome.raised }
        times) j0.id =
      some { j0 with
             status := "complete"
             step := "complete"
             download_url := some ("/downloads/" ++ j0.id ++ ".zip")
             updated_at := some (times 5) } := by
  have hupd : generate_app_updates j0.id { github := GithubOutcome.raised } =
      [{ status := "in_progress", step := "design" },
       { status := "in_progress", step := "coding" },
       { status := "in_progress", step := "validating" },
       { status := "in_progress", step := "packaging" },
       { status := "in_progress", step := "deploying",
         download_url := some ("/downloads/" ++ j0.id ++ ".zip") },
       { status := "complete", step := "complete" }] := rfl
  unfold run_generate_app
  rw [hupd]
  simp only [applyUpdatesFrom, update_job_status, update_job_store, updateFirst,
    findJob, List.find?_cons, applyFields, beq_self_eq_true, if_true,
    Option.getD_some, Option.some_bind, pyOr_none, pyOr_downloads,
    Option.or_some, Option.none_or, Option.or_self]

/-- Injectivity of the id scheme of the large-store counterexample. -/
theorem natToId_injective : Function.Injective natToId := by
  intro a b h
  have hdata : (natToId a).data = (natToId b).data := congrArg String.data h
  simp only [natToId] at hdata
  have hlen := congrArg List.length hdata
  simpa using hlen

/-- C9 counterexample: the sweep only examines the first 1000 listed jobs
(`list_jobs(limit=1000, offset=0)`), so in a store of 1001 stuck jobs the
oldest one satisfies every condition of the claim — `in_progress`, present
parseable timestamp older than the deadline — and is nevertheless left
unchanged by the sweep. -/
theorem stuck_sweep_limit_counterexample :
    mkStuckJob 1000 ∈ bigStore ∧
    isStuckSpec demoParse 2000 900 (mkStuckJob 1000) ∧
    (mkStuckJob 1000).status = "in_progress" ∧
    findJob (check_stuck_jobs_once demoParse 2000 900 "2000" bigStore)
        (mkStuckJob 1000).id = some (mkStuckJob 1000) := by
  have hmem : mkStuckJob 1000 ∈ bigStore :=
    List.mem_map_of_mem mkStuckJob (List.mem_range.mpr (by omega))
  have hids : bigStore.map Job.id = (List.range 1001).map natToId := by
    unfold bigStore
    rw [List.map_map]
    rfl
  have hnodup : (bigStore.map Job.id).Nodup := by
    rw [hids]
    exact (List.nodup_range 1001).map natToId_injective
  have hsorted : bigStore.insertionSort jobOrder = bigStore := by
    apply List.Sorted.insertionSort_eq
    unfold bigStore
    rw [List.Sorted, List.pairwise_map]
    apply (List.pairwise_lt_range 1001).imp
    intro a b hab
    show (mkStuckJob b).created_at ≤ (mkStuckJob a).created_at
    unfold mkStuckJob
    simp only
    omega
  have hexam : list_jobs bigStore 1000 0 none none none =
      (List.range 1000).map mkStuckJob := by
    rw [list_jobs_monitor, hsorted]
    unfold bigStore
    rw [← List.map_take, List.take_range]
    norm_num
  have hframe : ∀ x ∈ list_jobs bigStore 1000 0 none none none,
      stuckCheck demoParse 2000 900 x = true → x.id ≠ (mkStuckJob 1000).id := by
    rw [hexam]
    intro x hx _
    obtain ⟨k, hk, rfl⟩ := List.mem_map.mp hx
    have hklt : k < 1000 := List.mem_range.mp hk
    intro h
    have : k = 1000 := natToId_injective h
    omega
  refine ⟨hmem, ⟨rfl, "0", 0, rfl, rfl, by norm_num⟩, rfl, ?_⟩
  unfold check_stuck_jobs_once
  rw [sweep_foldl_frame demoParse 2000 900 "2000" (mkStuckJob 1000).id _
    bigStore hframe]
  exact findJob_of_nodup bigStore hnodup _ hmem

/-! ### Lemmas about the broadcast hub -/

theorem lookupTopic_eq_none_of_not_mem {Conn : Type} (topic : String) :
    ∀ m : ConnMap Conn, topic ∉ m.map Prod.fst → lookupTopic m topic = none := by
  intro m
  induction m with
  | nil => intro _; rfl
  | cons p ps ih =>
    intro h
    simp only [List.map_cons, List.mem_cons, not_or] at h
    have hp : (p.1 == topic) = false := by
      rw [beq_eq_false_iff_ne]
      exact fun he => h.1 (he ▸ rfl)
    simp only [lookupTopic, List.find?_cons, hp, Bool.false_eq_true, if_false]
    exact ih h.2

theorem lookupTopic_setTopic_self {Conn : Type} (topic : String)
    (l : List Conn) :
    ∀ m : ConnMap Conn, (lookupTopic m topic).isSome →
      lookupTopic (setTopic topic l m) topic = some l := by
  intro m
  induction m with
  | nil => intro h; simp [lookupTopic] at h
  | cons p ps ih =>
    intro h
    by_cases hp : (p.1 == topic) = true
    · simp [setTopic, hp, lookupTopic, List.find?_cons]
    · rw [Bool.not_eq_true] at hp
      simp only [lookupTopic, List.find?_cons, hp, Bool.false_eq_true,
        if_false] at h
      simp only [setTopic, hp, Bool.false_eq_true, if_false, lookupTopic,
        List.find?_cons]
      exact ih h

theorem lookupTopic_setTopic_other {Conn : Type} (topic other : String)
    (l : List Conn) (hne : other ≠ topic) :
    ∀ m : ConnMap Conn,
      lookupTopic (setTopic topic l m) other = lookupTopic m other := by
  intro m
  induction m with
  | nil => rfl
  | cons p ps ih =>
    by_cases hp : (p.1 == topic) = true
    · have hpt : p.1 = topic := eq_of_beq hp
      have h1 : ((topic, l).1 == other) = false := by
        rw [beq_eq_false_iff_ne]
        exact fun he => hne he.symm
      have h2 : (p.1 == other) = false := by
        rw [beq_eq_false_iff_ne, hpt]
        exact fun he => hne he.symm
      simp [setTopic, hp, lookupTopic, List.find?_cons, h1, h2]
    · rw [Bool.not_eq_true] at hp
      simp only [setTopic, hp, Bool.false_eq_true, if_false, lookupTopic,
        List.find?_cons] at ih ⊢
      cases hpo : (p.1 == other) <;> simp [hpo, ih]

theorem lookupTopic_removeTopic_self {Conn : Type} (topic : String) :
    ∀ m : ConnMap Conn, (m.map Prod.fst).Nodup →
      lookupTopic (removeTopic topic m) topic = none := by
  intro m
  induction m with
  | nil => intro _; rfl
  | cons p ps ih =>
    intro hnd
    simp only [List.map_cons, List.nodup_cons] at hnd
    by_cases hp : (p.1 == topic) = true
    · have hpt : p.1 = topic := eq_of_beq hp
      simp only [removeTopic, hp, if_true]
      exact lookupTopic_eq_none_of_not_mem topic ps (hpt ▸ hnd.1)
    · rw [Bool.not_eq_true] at hp
      simp only [removeTopic, hp, Bool.false_eq_true, if_false, lookupTopic,
        List.find?_cons, hp]
      exact ih hnd.2

theorem lookupTopic_removeTopic_other {Conn : Type} (topic other : String)
    (hne : other ≠ topic) :
    ∀ m : ConnMap Conn,
      lookupTopic (removeTopic topic m) other = lookupTopic m other := by
  intro m
  induction m with
  | nil => rfl
  | cons p ps ih =>
    by_cases hp : (p.1 == topic) = true
    · have hpt : p.1 = topic := eq_of_beq hp
      have h2 : (p.1 == other) = false := by
        rw [beq_eq_false_iff_ne, hpt]
        exact fun he => hne he.symm
      simp [removeTopic, hp, lookupTopic, List.find?_cons, h2]
    · rw [Bool.not_eq_true] at hp
      simp only [removeTopic, hp, Bool.false_eq_true, if_false, lookupTopic,
        List.find?_cons] at ih ⊢
      cases hpo : (p.1 == other) <;> simp [hpo, ih]

theorem keys_setTopic {Conn : Type} (topic : String) (l : List Conn) :
    ∀ m : ConnMap Conn,
      (setTopic topic l m).map Prod.fst = m.map Prod.fst := by
  intro m
  induction m with
  | nil => rfl
  | cons p ps ih =>
    by_cases hp : (p.1 == topic) = true
    · have hpt : p.1 = topic := eq_of_beq hp
      simp [setTopic, hp, hpt]
    · rw [Bool.not_eq_true] at hp
      simp only [setTopic, hp, Bool.false_eq_true, if_false, List.map_cons, ih]

theorem foldl_disconnect_absent {Conn : Type} [DecidableEq Conn]
    (job_id : String) :
    ∀ (ds : List Conn) (m : ConnMap Conn), lookupTopic m job_id = none →
      ds.foldl (fun acc c => disconnect acc c job_id) m = m := by
  intro ds
  induction ds with
  | nil => intro m _; rfl
  | cons c ds ih =>
    intro m h
    have hstep : disconnect m c job_id = m := by
      unfold disconnect
      rw [h]
    simp only [List.foldl_cons, hstep]
    exact ih m h

/-- Folding `disconnect` over a list of connections erases them one by one
from the topic's subscriber list (and only from it), dropping the key when
the list empties. -/
theorem foldl_disconnect_spec {Conn : Type} [DecidableEq Conn]
    (job_id : String) :
    ∀ (ds : List Conn) (m : ConnMap Conn) (l : List Conn),
      (m.map Prod.fst).Nodup → lookupTopic m job_id = some l →
      (subscribersOf (ds.foldl (fun acc c => disconnect acc c job_id) m)
          job_id = l.diff ds) ∧
      (∀ other, other ≠ job_id →
        lookupTopic (ds.foldl (fun acc c => disconnect acc c job_id) m)
          other = lookupTopic m other) := by
  intro ds
  induction ds with
  | nil =>
    intro m l _ hl
    refine ⟨?_, fun other _ => rfl⟩
    simp [subscribersOf, hl]
  | cons c ds ih =>
    intro m l hnd hl
    simp only [List.foldl_cons]
    by_cases hemp : (l.erase c).isEmpty = true
    · have hm1 : disconnect m c job_id = removeTopic job_id m := by
        unfold disconnect
        rw [hl]
        simp [hemp]
      rw [hm1]
      have habs : lookupTopic (removeTopic job_id m) job_id = none :=
        lookupTopic_removeTopic_self job_id m hnd
      rw [foldl_disconnect_absent job_id ds _ habs]
      refine ⟨?_, fun other hne =>
        lookupTopic_removeTopic_other job_id other hne m⟩
      have her : l.erase c = [] := List.isEmpty_iff.mp hemp
      rw [List.diff_cons, her, List.nil_diff]
      simp [subscribersOf, habs]
    · have hm1 : disconnect m c job_id = setTopic job_id (l.erase c) m := by
        unfold disconnect
        rw [hl]
        simp [hemp]
      rw [hm1]
      have hlook : lookupTopic (setTopic job_id (l.erase c) m) job_id =
          some (l.erase c) :=
        lookupTopic_setTopic_self job_id (l.erase c) m (by simp [hl])
      have hknd : ((setTopic job_id (l.erase c) m).map Prod.fst).Nodup := by
        rw [keys_setTopic]
        exact hnd
      obtain ⟨h1, h2⟩ := ih _ _ hknd hlook
      refine ⟨?_, fun other hne => (h2 other hne).trans
        (lookupTopic_setTopic_other job_id other _ hne m)⟩
      rw [h1, List.diff_cons]

theorem cons_diff_not_mem {α : Type} [DecidableEq α] (c : α) :
    ∀ (ds l : List α), c ∉ ds → (c :: l).diff ds = c :: l.diff ds := by
  intro ds
  induction ds with
  | nil => intro l _; simp
  | cons d ds ih =>
    intro l hc
    simp only [List.mem_cons, not_or] at hc
    rw [List.diff_cons, List.erase_cons_tail (by simpa using hc.1),
      ih (l.erase d) hc.2, List.diff_cons]

/-- Removing (one occurrence of) every failing element from a list removes
exactly the failing elements. -/
theorem diff_filter_self {α : Type} [DecidableEq α] (p : α → Bool) :
    ∀ l : List α, l.diff (l.filter p) = l.filter (fun a => !p a) := by
  intro l
  induction l with
  | nil => rfl
  | cons a l ih =>
    by_cases hp : p a = true
    · rw [List.filter_cons_of_pos hp, List.diff_cons, List.erase_cons_head,
        ih, List.filter_cons_of_neg (by simp [hp])]
    · have hp' : ¬ p a := hp
      have hna : a ∉ l.filter p :=
        fun hmem => hp' (List.mem_filter.mp hmem).2
      rw [List.filter_cons_of_neg hp', cons_diff_not_mem a _ _ hna, ih,
        List.filter_cons_of_pos (by simp [hp])]

/-- C10: publishing to a topic with no registered subscribers returns
normally with the state unchanged and nothing attempted; on a registered
topic the send is attempted to every subscriber in order, every non-failing
subscriber receives the event, and exactly the failing subscribers are
removed from that topic's subscriber list, with every other topic left
untouched. -/
theorem broadcast_fault_isolation {Conn : Type} [DecidableEq Conn]
    (fails : Conn → Bool) (m : ConnMap Conn) (job_id : String)
    (hkeys : (m.map Prod.fst).Nodup) :
    (lookupTopic m job_id = none →
      broadcast_to_job fails m job_id = (m, [], [])) ∧
    (∀ l, lookupTopic m job_id = some l →
      broadcast_to_job fails m job_id =
        ((l.filter fails).foldl (fun acc c => disconnect acc c job_id) m, l,
          l.filter (fun c => !fails c)) ∧
      subscribersOf (broadcast_to_job fails m job_id).1 job_id =
        l.filter (fun c => !fails c) ∧
      (∀ other, other ≠ job_id →
        lookupTopic (broadcast_to_job fails m job_id).1 other =
          lookupTopic m other)) := by
  constructor
  · intro h
    unfold broadcast_to_job
    rw [h]
  · intro l hl
    have hb : broadcast_to_job fails m job_id =
        ((l.filter fails).foldl (fun acc c => disconnect acc c job_id) m, l,
          l.filter (fun c => !fails c)) := by
      unfold broadcast_to_job
      rw [hl]
    obtain ⟨h1, h2⟩ := foldl_disconnect_spec job_id (l.filter fails) m l hkeys hl
    refine ⟨hb, ?_, ?_⟩
    · rw [hb]
      exact h1.trans (diff_filter_self fails l)
    · intro other hne
      rw [hb]
      exact h2 other hne

/-- Witness for the C10 theorem at a concrete subscriber map. -/
theorem broadcast_fault_isolation_witness :
    broadcast_to_job (fun c : ℕ => c == 1) [("job", [0, 1, 2])] "missing" =
      ([("job", [0, 1, 2])], [], []) ∧
    subscribersOf (broadcast_to_job (fun c : ℕ => c == 1)
        [("job", [0, 1, 2])] "job").1 "job" = [0, 2] := by
  constructor
  · exact (broadcast_fault_isolation (fun c : ℕ => c == 1)
      [("job", [0, 1, 2])] "missing" (by decide)).1 (by decide)
  · have h := ((broadcast_fault_isolation (fun c : ℕ => c == 1)
      [("job", [0, 1, 2])] "job" (by decide)).2 [0, 1, 2] (by decide)).2.1
    rw [h]
    decide

end AppBuilder
